import Mathlib

/-!
Verification of the singly linked list implemented in src/linkedlist.h.

Shallow-embedding conventions used throughout this file:

- A C pointer of type Cell_t* is modelled by the Lean list of the cell
  values reachable from it through the next links; the NULL pointer is the
  empty list.  List finiteness makes chain termination and acyclicity
  intrinsic to the model, which matches the exclusive-ownership discipline
  of the source.
- A stored value (a void*) is an Option, with none standing for NULL.
- currentSize is the uint32_t field of LinkedList_t; every write to it in
  the model applies an explicit % U32, mirroring unsigned wraparound, and
  the C expression currentSize - 1 (unsigned) is modelled by usub1.
- Positions are size_t, modelled as plain Nat arguments.
- An operation that can dereference NULL returns an Option result where
  none marks undefined behaviour.  Contents of uninitialized malloc memory
  (Reserve and DryNulls allocate structures without initializing all
  fields) appear as explicit junk parameters, quantifying over what the
  allocator may have left there.
-/

namespace LinkedListC

/-- Modulus of uint32_t arithmetic: 2 to the 32. -/
def U32 : Nat := 4294967296

/-- The LIST_TAIL sentinel of the source, INT64_MAX. -/
def LIST_TAIL : Nat := 9223372036854775807

/-- struct LinkedList_t: head is the chain of cell values reachable from the
head pointer (the empty list models a NULL head); currentSize is the
uint32_t size field. -/
structure LinkedList (α : Type) where
  head : List (Option α)
  currentSize : Nat
deriving DecidableEq

variable {α : Type}

/-- Empty (linkedlist.h lines 159-162): head == NULL and currentSize == 0. -/
def Empty (l : LinkedList α) : Bool :=
  l.head.isEmpty && l.currentSize == 0

/-- The C expression currentSize - 1 where currentSize is uint32_t:
unsigned wraparound subtraction of one. -/
def usub1 (n : Nat) : Nat := (n + U32 - 1) % U32

/-- The sentinel resolution performed at the top of RemoveAt, InsertAt and
GetAt: if position == LIST_TAIL, position becomes currentSize - 1 in
uint32 arithmetic. -/
def resolveTail (size position : Nat) : Nat :=
  if position = LIST_TAIL then usub1 size else position

/-- PushBack (lines 173-203): a new cell wrapping the value becomes the
head if the head is NULL (currentSize is then set, not incremented, to 1);
otherwise the traversal appends it after the last cell and currentSize is
incremented. -/
def PushBack (l : LinkedList α) (value : Option α) : LinkedList α :=
  if l.head.isEmpty then ⟨[value], 1⟩
  else ⟨l.head ++ [value], (l.currentSize + 1) % U32⟩

/-- PushFront (lines 214-239): a new cell becomes the head; on a NULL head
currentSize is set to 1, otherwise the old head is linked behind the new
cell and currentSize is incremented. -/
def PushFront (l : LinkedList α) (value : Option α) : LinkedList α :=
  if l.head.isEmpty then ⟨[value], 1⟩
  else ⟨value :: l.head, (l.currentSize + 1) % U32⟩

/-- The traversal and splice of RemoveAt (lines 302-312).  The walk leaves
beforeTarget == NULL when position == 0, and walks the pivot off the end of
the chain when position is at or past the chain length; both ends in a NULL
dereference, modelled as none.  On success the cell at the position is
unlinked; note that the source does not touch currentSize here. -/
def removeSplice (chain : List (Option α)) (position : Nat) :
    Option (List (Option α)) :=
  if position = 0 then none
  else if position < chain.length then
    some (chain.take position ++ chain.drop (position + 1))
  else none

/-- RemoveAt (lines 278-313): resolve LIST_TAIL, return unchanged if the
list is Empty, return unchanged if position exceeds currentSize - 1 in
unsigned arithmetic, otherwise splice.  The source never decrements
currentSize in the splice path. -/
def RemoveAt (l : LinkedList α) (position : Nat) : Option (LinkedList α) :=
  if Empty l then some l
  else if resolveTail l.currentSize position > usub1 l.currentSize then some l
  else (removeSplice l.head (resolveTail l.currentSize position)).map
    fun c => ⟨c, l.currentSize⟩

/-- The traversal and splice of InsertAt (lines 361-370).  The walk
dereferences the cells before the position, so it needs position to be at
most the chain length; the callers guarantee position is nonzero, so the
predecessor exists and the new cell is linked between it and the pivot. -/
def insertSplice (chain : List (Option α)) (position : Nat)
    (value : Option α) : Option (List (Option α)) :=
  if position ≤ chain.length then
    some (chain.take position ++ value :: chain.drop position)
  else none

/-- InsertAt (lines 325-371): resolve LIST_TAIL, reject positions above
currentSize - 1 in unsigned arithmetic, reject nonzero positions on an
Empty list, delegate position 0 to PushFront, delegate position ==
currentSize to PushBack (a branch the preceding bound check makes
unreachable for nonempty lists), otherwise splice and increment
currentSize. -/
def InsertAt (l : LinkedList α) (position : Nat) (value : Option α) :
    Option (LinkedList α) :=
  if resolveTail l.currentSize position > usub1 l.currentSize then some l
  else if Empty l ∧ resolveTail l.currentSize position ≠ 0 then some l
  else if resolveTail l.currentSize position = 0 then
    some (PushFront l value)
  else if resolveTail l.currentSize position = l.currentSize then
    some (PushBack l value)
  else (insertSplice l.head (resolveTail l.currentSize position) value).map
    fun c => ⟨c, (l.currentSize + 1) % U32⟩

/-- GetAt (lines 384-417): resolve LIST_TAIL, return NULL (modelled some
of the empty chain) on a position above currentSize - 1 in unsigned
arithmetic or on a nonzero position with an Empty list, return the head
pointer itself at position 0 (which is NULL on an empty list), otherwise
walk to the position.  The walk dereferences the cells strictly before the
position, so a position equal to the chain length yields the NULL next of
the last cell, and a larger one is a NULL dereference (none). -/
def GetAt (l : LinkedList α) (position : Nat) :
    Option (List (Option α)) :=
  if resolveTail l.currentSize position > usub1 l.currentSize then some []
  else if Empty l ∧ resolveTail l.currentSize position ≠ 0 then some []
  else if resolveTail l.currentSize position = 0 then some l.head
  else if resolveTail l.currentSize position ≤ l.head.length then
    some (l.head.drop (resolveTail l.currentSize position))
  else none

/-- Reserve (lines 429-442): a fresh list whose head cell is allocated but
whose value field is never written (junkValue), followed by positions - 1
cells whose values are set to NULL; the next field of the last allocated
cell is never written either, so the chain continues into whatever the
junk pointer reaches (junkNext, the empty list when the garbage happens to
be NULL).  currentSize is set to positions.  With positions == 0 the loop
counter chases positions - 1 == SIZE_MAX and allocation never terminates,
modelled as none. -/
def Reserve (junkValue : Option α) (junkNext : List (Option α))
    (positions : Nat) : Option (LinkedList α) :=
  if positions = 0 then none
  else some ⟨junkValue :: (List.replicate (positions - 1) none ++ junkNext),
    positions % U32⟩

/-- DryNulls (lines 454-467): the new list is malloc-ed and never
initialized, so its head chain and size start as junk (junkHead,
junkSize); the loop follows next exactly currentSize times over the input
pushing every non-NULL value onto the new list, hence a chain shorter than
currentSize dereferences NULL (none).  The source then calls Free on the
input list. -/
def DryNulls (junkHead : List (Option α)) (junkSize : Nat)
    (l : LinkedList α) : Option (LinkedList α) :=
  if l.currentSize ≤ l.head.length then
    some (((l.head.take l.currentSize).filter Option.isSome).foldl PushBack
      ⟨junkHead, junkSize % U32⟩)
  else none

/-- RetrieveFront (lines 479-493): returns NULL on an Empty list (first
component none, list untouched); otherwise unlinks the head cell, sets its
next to NULL, rewires head to the second cell and decrements currentSize.
A NULL head with nonzero currentSize dereferences NULL. -/
def RetrieveFront (l : LinkedList α) :
    Option (Option (Option α) × LinkedList α) :=
  if Empty l then some (none, l)
  else
    match l.head with
    | [] => none
    | v :: rest => some (some v, ⟨rest, usub1 l.currentSize⟩)

/-- RetrieveBack (lines 505-526): returns NULL on an Empty list; otherwise
walks to the last cell.  On a NULL head with nonzero currentSize the walk
dereferences NULL, and on a single-cell chain beforeTarget is still NULL
when the source writes through it, so both are none.  With two or more
cells the last cell is unlinked and returned and currentSize is
decremented. -/
def RetrieveBack (l : LinkedList α) :
    Option (Option (Option α) × LinkedList α) :=
  if Empty l then some (none, l)
  else
    match l.head with
    | [] => none
    | [_] => none
    | v :: w :: rest =>
      some ((v :: w :: rest).getLast?,
        ⟨(v :: w :: rest).dropLast, usub1 l.currentSize⟩)

/-- Repeated PushBack of a list of values, the construction used by the
order-preservation scenario of the spec. -/
def pushBackN (l : LinkedList α) (vs : List (Option α)) : LinkedList α :=
  vs.foldl PushBack l

/-- The structural invariant of the spec: the chain reachable from head
holds exactly currentSize cells (termination and acyclicity are intrinsic
to the list model), currentSize == 0 exactly when head is NULL, and
currentSize is in uint32_t range as its C type forces. -/
@[reducible] def Invariant (l : LinkedList α) : Prop :=
  l.currentSize = l.head.length ∧ (l.currentSize = 0 ↔ l.head = []) ∧
    l.currentSize < U32

/-- A list in the freshly created empty state: NULL head, size zero. -/
def emptyList : LinkedList α := ⟨[], 0⟩

/-- C1: the structural invariant is not preserved by RemoveAt.  On the
invariant-satisfying two-element list, RemoveAt 1 unlinks the second cell
but leaves currentSize at 2, so the result violates the invariant: the
source omits the currentSize decrement. -/
theorem removeAt_breaks_invariant :
    Invariant (⟨[some 1, some 2], 2⟩ : LinkedList Nat) ∧
    RemoveAt (⟨[some 1, some 2], 2⟩ : LinkedList Nat) 1 =
      some ⟨[some 1], 2⟩ ∧
    ¬ Invariant (⟨[some 1], 2⟩ : LinkedList Nat) := by decide

/-- C2: RemoveAt at a middle position leaves currentSize undecremented,
and RemoveAt at position 0 on a nonempty list writes through the NULL
beforeTarget pointer (undefined behaviour, modelled none) instead of
promoting the second cell to head. -/
theorem removeAt_no_decrement_and_crash_at_zero :
    RemoveAt (⟨[some 1, some 2, some 3], 3⟩ : LinkedList Nat) 1 =
      some ⟨[some 1, some 3], 3⟩ ∧
    RemoveAt (⟨[some 1, some 2], 2⟩ : LinkedList Nat) 0 = none := by decide

/-- C3: on a nonempty list, InsertAt at position == currentSize is
rejected by the bound check position > currentSize - 1 and mutates
nothing, while PushBack of the same value appends it; the delegation
branch to PushBack in the source is unreachable there. -/
theorem insertAt_size_rejected_not_pushBack :
    InsertAt (⟨[some 1], 1⟩ : LinkedList Nat) 1 (some 2) =
      some ⟨[some 1], 1⟩ ∧
    PushBack (⟨[some 1], 1⟩ : LinkedList Nat) (some 2) =
      ⟨[some 1, some 2], 2⟩ := by decide

/-- C4: Reserve never writes the value field of the head cell nor the next
field of the last allocated cell, so both keep their malloc junk: with
junk value some 7 the first cell of Reserve 3 is not absent, and with a
non-NULL junk next pointer the chain of Reserve 1 holds more than one
cell. -/
theorem reserve_leaves_junk :
    Reserve (some 7) ([] : List (Option Nat)) 3 =
      some ⟨[some 7, none, none], 3⟩ ∧
    Reserve (none : Option Nat) [some 9] 1 =
      some ⟨[none, some 9], 1⟩ := by decide

/-- C5: DryNulls pushes the surviving values onto a malloc-ed list whose
head and size fields were never initialized, so with junk head holding one
cell and junk size 7 the compaction of the chain holding some 1, none,
some 2 returns the junk cell followed by the survivors with size 9,
instead of the two survivors with size 2. -/
theorem dryNulls_builds_on_junk :
    DryNulls [some 9] 7 (⟨[some 1, none, some 2], 3⟩ : LinkedList Nat) =
      some ⟨[some 9, some 1, some 2], 9⟩ := by decide

/-- C6: the round trip from the empty list is undefined behaviour: after
PushBack the list holds a single cell, and RetrieveBack on a single-cell
chain writes through the NULL beforeTarget pointer. -/
theorem pushBack_retrieveBack_crashes_from_empty :
    RetrieveBack (PushBack (emptyList : LinkedList Nat) (some 5)) =
      none := by decide

/-- C7: InsertAt at position 0 on the empty list passes the unsigned bound
check, is allowed by the emptiness check, and delegates to PushFront,
producing the singleton list holding the value with size 1. -/
theorem insertAt_zero_empty_singleton (v : Option Nat) :
    InsertAt emptyList 0 v = some ⟨[v], 1⟩ := rfl

/-- C9: RemoveAt on the empty list takes the Empty branch before any
mutation, for every position argument including LIST_TAIL and arbitrarily
large indices, and returns the list unchanged. -/
theorem removeAt_empty_noop (p : Nat) :
    RemoveAt (emptyList : LinkedList Nat) p = some emptyList := rfl

/-- Unsigned decrement of a size already in uint32_t range. -/
theorem usub1_lt (n : Nat) (h1 : 1 ≤ n) (h2 : n < U32) : usub1 n = n - 1 := by
  unfold usub1 U32 at *
  omega

/-- Unsigned decrement of a reduced size, covering the boundary where the
true length is exactly U32 and the stored field has wrapped to zero. -/
theorem usub1_mod (n : Nat) (h1 : 1 ≤ n) (h2 : n ≤ U32) :
    usub1 (n % U32) = n - 1 := by
  unfold usub1 U32 at *
  omega

/-- Repeated PushBack onto a list with a non-NULL head appends the values
in order and adds their count to currentSize in uint32 arithmetic. -/
theorem pushBackN_nonempty (vs : List (Option α)) :
    ∀ l : LinkedList α, l.head ≠ [] → l.currentSize < U32 →
      pushBackN l vs = ⟨l.head ++ vs, (l.currentSize + vs.length) % U32⟩ := by
  induction vs with
  | nil =>
    intro l hl hs
    simp [pushBackN, Nat.mod_eq_of_lt hs]
  | cons v vs ih =>
    intro l hl hs
    have hstep : PushBack l v = ⟨l.head ++ [v], (l.currentSize + 1) % U32⟩ := by
      unfold PushBack
      rw [if_neg (by simp [List.isEmpty_iff, hl])]
    have hfold : pushBackN l (v :: vs) = pushBackN (PushBack l v) vs := by
      simp [pushBackN]
    rw [hfold, hstep,
      ih ⟨l.head ++ [v], (l.currentSize + 1) % U32⟩ (by simp)
        (Nat.mod_lt _ (by decide))]
    have harith : ((l.currentSize + 1) % U32 + vs.length) % U32 =
        (l.currentSize + (vs.length + 1)) % U32 := by
      unfold U32
      omega
    simp [List.append_assoc, harith]

/-- Repeated PushBack from the freshly created empty list builds exactly
the chain of the pushed values, with currentSize their count reduced mod
2 to the 32. -/
theorem pushBackN_from_empty (vs : List (Option α)) :
    pushBackN (emptyList : LinkedList α) vs = ⟨vs, vs.length % U32⟩ := by
  cases vs with
  | nil => rfl
  | cons v vs =>
    have hfold : pushBackN (emptyList : LinkedList α) (v :: vs) =
        pushBackN ⟨[v], 1⟩ vs := by
      simp [pushBackN, emptyList, PushBack]
    rw [hfold, pushBackN_nonempty vs ⟨[v], 1⟩ (by simp)
      (by show 1 < U32; decide)]
    simp [Nat.add_comm]

/-- GetAt on a chain built by pushes, at an in-range index, walks to that
index and returns the cell there, modelled as the chain suffix starting at
the index. -/
theorem getAt_inbounds (vs : List (Option α)) (hvs : vs.length ≤ U32)
    (i : Nat) (hi : i < vs.length) :
    GetAt ⟨vs, vs.length % U32⟩ i = some (vs.drop i) := by
  have h1 : 1 ≤ vs.length := by omega
  have hb : usub1 (vs.length % U32) = vs.length - 1 := usub1_mod _ h1 hvs
  have hiT : i ≠ LIST_TAIL := by
    unfold LIST_TAIL at *
    unfold U32 at hvs
    omega
  have hne : vs.isEmpty = false := by
    cases vs with
    | nil => simp at hi
    | cons a l => rfl
  unfold GetAt
  dsimp only
  simp only [resolveTail, if_neg hiT]
  rw [hb]
  rw [if_neg (by omega : ¬ i > vs.length - 1)]
  rw [if_neg (by
    rintro ⟨hE, -⟩
    unfold Empty at hE
    simp [hne] at hE)]
  by_cases h0 : i = 0
  · subst h0
    rw [if_pos rfl]
    simp
  · rw [if_neg h0, if_pos (by omega : i ≤ vs.length)]

/-- GetAt on a list in the empty state returns the NULL pointer whatever
the position: either the unsigned bound check fails, or the emptiness
check fires, or position 0 returns the NULL head itself. -/
theorem getAt_nil_always (p : Nat) :
    GetAt (⟨[], 0⟩ : LinkedList α) p = some [] := by
  unfold GetAt
  dsimp only
  split
  · rfl
  next hA =>
    split
    · rfl
    next hB =>
      split
      · rfl
      next hC => exact absurd ⟨rfl, hC⟩ hB

/-- C8, amended: for at most 2 to the 32 values pushed via PushBack in
order onto the empty list, GetAt at each in-range index returns the cell
holding the corresponding value. -/
theorem getAt_pushBackN_order (vs : List (Option Nat)) (hvs : vs.length ≤ U32)
    (i : Nat) (hi : i < vs.length) :
    ∃ rest, GetAt (pushBackN emptyList vs) i =
      some (vs.get ⟨i, hi⟩ :: rest) := by
  refine ⟨vs.drop (i + 1), ?_⟩
  rw [pushBackN_from_empty, getAt_inbounds vs hvs i hi,
    List.drop_eq_getElem_cons hi]
  simp [List.get_eq_getElem]

/-- C8 witness: pushing some 1 then some 2 onto the empty list and reading
index 1 yields the cell holding some 2. -/
theorem getAt_pushBackN_order_witness :
    ∃ rest, GetAt (pushBackN (emptyList : LinkedList Nat)
      [some 1, some 2]) 1 = some (some 2 :: rest) :=
  getAt_pushBackN_order [some 1, some 2] (by decide) 1 (by decide)

/-- C8 counterexample: after 2 to the 32 plus 5 pushes the uint32_t
currentSize has wrapped to 5, so the bound check of GetAt rejects index 7
and returns NULL even though the chain holds a cell with the pushed value
there; the claim as stated fails for such n. -/
theorem getAt_fails_beyond_u32 :
    ¬ ∃ rest, GetAt (pushBackN (emptyList : LinkedList Nat)
      (List.replicate (U32 + 5) (some 0))) 7 = some (some 0 :: rest) := by
  rintro ⟨rest, h⟩
  rw [pushBackN_from_empty, List.length_replicate] at h
  have hm : (U32 + 5) % U32 = 5 := by decide
  rw [hm] at h
  unfold GetAt at h
  dsimp only at h
  rw [if_pos (by decide : resolveTail 5 7 > usub1 5)] at h
  simp at h

/-- C10: GetAt at position 0 on the empty list returns the NULL head, not
a valid cell; and on every list satisfying the structural invariant, GetAt
returns a valid cell exactly when the sentinel-resolved position is below
currentSize. -/
theorem getAt_empty_and_bounds :
    GetAt (emptyList : LinkedList Nat) 0 = some [] ∧
    ∀ l : LinkedList Nat, Invariant l → ∀ p : Nat,
      ((∃ s, GetAt l p = some s ∧ s ≠ []) ↔
        resolveTail l.currentSize p < l.currentSize) := by
  refine ⟨rfl, ?_⟩
  rintro ⟨chain, size⟩ ⟨hlen, hiff, hU⟩ p
  dsimp only at hlen hiff hU ⊢
  rcases chain with _ | ⟨v, t⟩
  · have hs : size = 0 := by simpa using hlen
    subst hs
    constructor
    · rintro ⟨s, hG, hne⟩
      rw [getAt_nil_always] at hG
      cases hG
      exact absurd rfl hne
    · intro h
      exact absurd h (by omega)
  · have hsz : size = t.length + 1 := by simpa using hlen
    have h1 : 1 ≤ size := by omega
    have hb : usub1 size = size - 1 := usub1_lt size h1 hU
    by_cases hlt : resolveTail size p < size
    · refine iff_of_true ?_ hlt
      unfold GetAt
      dsimp only
      rw [hb]
      rw [if_neg (by omega : ¬ resolveTail size p > size - 1)]
      rw [if_neg (by
        rintro ⟨hE, -⟩
        unfold Empty at hE
        simp at hE)]
      by_cases h0 : resolveTail size p = 0
      · rw [if_pos h0]
        exact ⟨v :: t, rfl, by simp⟩
      · rw [if_neg h0, if_pos (by
          simp only [List.length_cons]
          omega : resolveTail size p ≤ (v :: t).length)]
        refine ⟨(v :: t).drop (resolveTail size p), rfl, ?_⟩
        simp only [ne_eq, List.drop_eq_nil_iff, List.length_cons]
        omega
    · refine iff_of_false ?_ hlt
      rintro ⟨s, hG, hne⟩
      unfold GetAt at hG
      dsimp only at hG
      rw [hb, if_pos (by omega : resolveTail size p > size - 1)] at hG
      cases hG
      exact absurd rfl hne

/-- C10 witness: on the invariant-satisfying singleton list, GetAt at
position 0 returns a valid cell. -/
theorem getAt_empty_and_bounds_witness :
    ∃ s, GetAt (⟨[some 7], 1⟩ : LinkedList Nat) 0 = some s ∧ s ≠ [] :=
  (getAt_empty_and_bounds.2 ⟨[some 7], 1⟩ (by decide) 0).mpr (by decide)

end LinkedListC
